import Mathlib

/-!
Verification development for the `DataWriter` module of the dfmodules
repository (`src/plugins/DataWriter.cpp`).  The module receives trigger
records, optionally persists them through a data store with capped
exponential-backoff retry, tracks completion of multi-part events through
a sequence-number count map, and emits `TriggerDecisionToken` completion
messages.

The embedding below is a shallow, executable translation of the relevant
functions.  External effects (storage writes, token sends, reads of the
atomic `m_running` flag, wall-clock time spent inside write attempts) are
supplied as explicit oracles, consumed in exactly the order the C++ code
performs the corresponding calls.
-/

set_option linter.unusedVariables false

/-! ## The sequence-number count map (`m_seqno_counts`) -/

/-- `m_seqno_counts` is a `std::map<trigger_number_t, count>`; we model it as
an association list.  Every map reachable by the operations below has
pairwise-distinct keys. -/
abbrev SeqnoMap := List (Nat × Nat)

/-- Lookup of a key (`m_seqno_counts.count` / `.at`): first matching entry. -/
def smLookup : SeqnoMap → Nat → Option Nat
  | [], _ => none
  | (k, v) :: rest, key => if k = key then some v else smLookup rest key

/-- `m_seqno_counts[key] = v`: overwrite the entry if present, append it if
absent (the `std::map` subscript-assignment semantics). -/
def smSet : SeqnoMap → Nat → Nat → SeqnoMap
  | [], key, v => [(key, v)]
  | (k, w) :: rest, key, v =>
    if k = key then (key, v) :: rest else (k, w) :: smSet rest key v

/-- `m_seqno_counts.erase(key)`: drop the first entry with that key. -/
def smErase : SeqnoMap → Nat → SeqnoMap
  | [], _ => []
  | (k, w) :: rest, key => if k = key then rest else (k, w) :: smErase rest key

/-- `m_seqno_counts.count(key)` of the C++ `std::map`: `1` if present else `0`. -/
def smCount (m : SeqnoMap) (key : Nat) : Nat :=
  match smLookup m key with
  | some _ => 1
  | none => 0

/-- The sequence-completion tracking block of
`DataWriter::receive_trigger_record` (DataWriter.cpp lines 292-310),
as a pure function of the map: given the trigger number and the (zero-based)
`max_sequence_number` of the incoming record, return whether the block left
`send_trigger_complete_message` untouched (`true` = the event is complete as
far as this block is concerned) together with the updated map.
When `max_sequence_number == 0` the block is skipped entirely: the map is
unchanged and the message flag is left `true`.
Note that the C++ block never reads the record's own `sequence_number`; only
the trigger (event) number and the max sequence number matter. -/
def seqTrack (m : SeqnoMap) (trigno maxseq : Nat) : Bool × SeqnoMap :=
  if maxseq > 0 then
    let m1 := if smCount m trigno > 0
              then smSet m trigno ((smLookup m trigno).getD 0 + 1)
              else smSet m trigno 1
    -- GT (>) comparison: counts are one-based, max_sequence_number zero-based
    if (smLookup m1 trigno).getD 0 > maxseq then (true, smErase m1 trigno)
    else (false, m1)
  else (true, m)

/-- `j` successive observations of parts of the same event (trigger number
`trigno`, maximum sequence number `maxseq`) starting from map `m`:
the map after the `j`-th call of the tracking block. -/
def observeN (trigno maxseq : Nat) (m : SeqnoMap) : Nat → SeqnoMap
  | 0 => m
  | j + 1 => (seqTrack (observeN trigno maxseq m j) trigno maxseq).2

/-- Folding the tracking block over a list of `(trigger_number,
max_sequence_number)` pairs, the metadata of successive record parts. -/
def trackList : SeqnoMap → List (Nat × Nat) → SeqnoMap
  | m, [] => m
  | m, (t, mx) :: rest => trackList (seqTrack m t mx).2 rest

/-! ## The write retry loop (DataWriter.cpp lines 252-283) -/

/-- Outcome of one `m_data_writer->write(...)` call: normal return,
`RetryableDataStoreProblem`, or any other `std::exception`. -/
inductive WriteAttemptOutcome
  | success
  | retryable
  | fatal
deriving DecidableEq, Repr, Inhabited

/-- Result of running the write retry loop once for one record part. -/
structure WriteLoopResult where
  /-- the `write` call returned normally (counters were incremented) -/
  written : Bool
  /-- the loop exited because `m_running` was observed `false` (or the
  attempt oracle ran dry, which the theorems below rule out) -/
  abandoned : Bool
  /-- the successive `usleep` backoff delays actually waited, in order -/
  delays : List Nat
  /-- number of `write` calls performed -/
  attempts : Nat
deriving DecidableEq, Repr, Inhabited

/-- The capping of `retry_wait_usec` applied just before each `usleep`
(DataWriter.cpp lines 270-272). -/
def capDelay (maxT w : Nat) : Nat := if w > maxT then maxT else w

/-- The `do { ... } while (should_retry && m_running.load())` write retry
loop.  `w` is the current `retry_wait_usec` (initially
`m_min_write_retry_time_usec`); `outcomes` yields the result of each
successive `write` call and `running` the value of each successive
`m_running.load()` at the loop condition.  Because `&&` short-circuits,
`m_running` is read only after a retryable failure.  On a retryable failure
the delay is capped, slept, and then multiplied by
`m_write_retry_time_increase_factor` before the loop condition is checked.
The empty-oracle fallbacks are unreachable under the theorems below, which
always supply sufficiently long oracles. -/
def writeRetryLoop (maxT factor : Nat) : Nat → List WriteAttemptOutcome → List Bool → WriteLoopResult
  | _, [], _ => { written := false, abandoned := true, delays := [], attempts := 0 }
  | _, WriteAttemptOutcome.success :: _, _ =>
    { written := true, abandoned := false, delays := [], attempts := 1 }
  | _, WriteAttemptOutcome.fatal :: _, _ =>
    { written := false, abandoned := false, delays := [], attempts := 1 }
  | w, WriteAttemptOutcome.retryable :: rest, running =>
    match running with
    | [] => { written := false, abandoned := true, delays := [capDelay maxT w], attempts := 1 }
    | r :: rrest =>
      if r then
        let res := writeRetryLoop maxT factor (capDelay maxT w * factor) rest rrest
        { written := res.written, abandoned := res.abandoned,
          delays := capDelay maxT w :: res.delays, attempts := res.attempts + 1 }
      else
        { written := false, abandoned := true, delays := [capDelay maxT w], attempts := 1 }

/-- Closed form of the backoff delays waited over `n` consecutive retryable
failures with the running flag held `true`, starting from wait value `w`. -/
def delaysSeq (maxT factor : Nat) : Nat → Nat → List Nat
  | _, 0 => []
  | w, n + 1 => capDelay maxT w :: delaysSeq maxT factor (capDelay maxT w * factor) n

/-- The backoff delays slept under `n` consecutive retryable write failures
with the running flag continuously `true`. -/
def sustainedDelays (maxT factor minT n : Nat) : List Nat :=
  (writeRetryLoop maxT factor minT
    (List.replicate n WriteAttemptOutcome.retryable) (List.replicate n true)).delays

/-! ## The token notify loop (DataWriter.cpp lines 320-330) -/

/-- Result of the completion-token send loop. -/
structure NotifyResult where
  sent : Bool
  attempts : Nat
deriving DecidableEq, Repr, Inhabited

/-- The `do { send } while (!wasSentSuccessfully && m_running.load())` loop:
`sends` yields the outcome of each successive `send` call (`true` = no
exception) and `running` the successive `m_running.load()` reads, which occur
only after a failed send because `&&` short-circuits. -/
def notifyLoop : List Bool → List Bool → NotifyResult
  | [], _ => { sent := false, attempts := 0 }
  | s :: rest, running =>
    if s then { sent := true, attempts := 1 }
    else
      match running with
      | [] => { sent := false, attempts := 1 }
      | r :: rrest =>
        if r then
          let res := notifyLoop rest rrest
          { sent := res.sent, attempts := res.attempts + 1 }
        else { sent := false, attempts := 1 }

/-! ## Configuration (`DataWriter::do_conf`, DataWriter.cpp lines 89-136) -/

/-- The configure-time presence-token loop (DataWriter.cpp lines 123-134):
`int wasSentSuccessfully = 5; do { try send... } while (wasSentSuccessfully)`.
A successful send sets the variable to `0`; a failure decrements it.  The
function returns whether the token was eventually sent and how many send
attempts were made.  `counter` is the current value of `wasSentSuccessfully`
entering the iteration (initially `5`). -/
def confTokenLoop : Nat → List Bool → Bool × Nat
  | _, [] => (false, 0)
  | counter, s :: rest =>
    if s then (true, 1)
    else if counter - 1 = 0 then (false, 1)
    else
      let r := confTokenLoop (counter - 1) rest
      (r.1, r.2 + 1)

/-- The subset of `datawriter::ConfParams` that the embedded logic reads. -/
structure ConfParams where
  data_storage_prescale : Nat
  min_write_retry_time_usec : Nat
  max_write_retry_time_usec : Nat
  write_retry_time_increase_factor : Nat
deriving DecidableEq, Repr, Inhabited

/-- Observable outcome of `DataWriter::do_conf`: whether it raised
(`UnableToConfigure` / `InvalidDataWriter`), the retry parameters it stored,
and the fate of the presence-announcement token. -/
structure ConfResult where
  threw : Bool
  data_storage_prescale : Nat
  min_write_retry_time_usec : Nat
  max_write_retry_time_usec : Nat
  write_retry_time_increase_factor : Nat
  token_sent : Bool
  send_attempts : Nat
deriving DecidableEq, Repr, Inhabited

/-- `DataWriter::do_conf` (DataWriter.cpp lines 89-136).
`store_ok` models whether `make_data_store` yields a valid instance (on
failure the method throws before reaching the token loop); `sends` is the
outcome oracle for the presence-token send attempts.
`m_min_write_retry_time_usec` is clamped to at least `1` (lines 98-100)
before anything else.  After the token loop the method returns normally no
matter how the loop ended. -/
def do_conf (p : ConfParams) (store_ok : Bool) (sends : List Bool) : ConfResult :=
  let minT := if p.min_write_retry_time_usec < 1 then 1 else p.min_write_retry_time_usec
  if store_ok then
    let r := confTokenLoop 5 sends
    { threw := false
      data_storage_prescale := p.data_storage_prescale
      min_write_retry_time_usec := minT
      max_write_retry_time_usec := p.max_write_retry_time_usec
      write_retry_time_increase_factor := p.write_retry_time_increase_factor
      token_sent := r.1
      send_attempts := r.2 }
  else
    { threw := true
      data_storage_prescale := p.data_storage_prescale
      min_write_retry_time_usec := minT
      max_write_retry_time_usec := p.max_write_retry_time_usec
      write_retry_time_increase_factor := p.write_retry_time_increase_factor
      token_sent := false
      send_attempts := 0 }

/-! ## Module state and the per-record processing path -/

/-- The trigger-record header fields read by `receive_trigger_record`. -/
structure TRHeader where
  run_number : Nat
  trigger_number : Nat
  sequence_number : Nat
  max_sequence_number : Nat
  total_size_bytes : Nat
deriving DecidableEq, Repr, Inhabited

/-- The configuration-like members read during record processing:
`m_run_number` and `m_data_storage_is_enabled` are set by `do_start`, the
prescale and retry parameters by `do_conf`. -/
structure DWConfig where
  run_number : Nat
  data_storage_prescale : Nat
  data_storage_is_enabled : Bool
  min_write_retry_time_usec : Nat
  max_write_retry_time_usec : Nat
  write_retry_time_increase_factor : Nat
deriving DecidableEq, Repr, Inhabited

/-- The mutable counters and the sequence-count map of the module.  The
atomic `m_running` flag is externally mutated by the control path, so its
successive reads are part of the oracle rather than of this state. -/
structure DWState where
  records_received : Nat
  records_received_tot : Nat
  records_written : Nat
  records_written_tot : Nat
  bytes_output : Nat
  bytes_output_tot : Nat
  writing_ms : Nat
  seqno_counts : SeqnoMap
deriving DecidableEq, Repr, Inhabited

/-- Environment oracle for one `receive_trigger_record` call: outcomes of the
storage-write attempts, the `m_running` reads of the write retry loop, the
wall-clock time spent inside the write attempts themselves (the measured
span between the two `steady_clock::now()` calls is this overhead plus the
backoff sleeps), the `m_running` read that initialises
`send_trigger_complete_message`, and the send outcomes / `m_running` reads of
the token notify loop. -/
structure RecvOracle where
  writeOutcomes : List WriteAttemptOutcome
  writeRunning : List Bool
  writeOverhead : Nat
  runningAtComplete : Bool
  sendOutcomes : List Bool
  sendRunning : List Bool
deriving DecidableEq, Repr, Inhabited

/-- Externally observable effects of one `receive_trigger_record` call. -/
structure RecvEffects where
  /-- an `InvalidRunNumber` error was reported and the part dropped -/
  run_mismatch_error : Bool
  /-- the storage-write branch was entered (prescale selected the part and
  data storage is enabled) -/
  write_attempted : Bool
  /-- a `write` call returned normally -/
  written : Bool
  /-- the token send loop was entered -/
  token_attempted : Bool
  /-- a token send succeeded -/
  token_sent : Bool
  /-- `run_number` carried by the token (0 when no token was attempted) -/
  token_run_number : Nat
  /-- `trigger_number` carried by the token (0 when no token was attempted) -/
  token_trigger_number : Nat
  /-- the backoff delays slept by the write retry loop -/
  backoff_delays : List Nat
deriving DecidableEq, Repr, Inhabited

/-- `DataWriter::receive_trigger_record` (DataWriter.cpp lines 222-335).
Order of operations, as in the source: increment both received counters;
validate the run number (report and drop on mismatch); test the prescale
against the already-incremented `m_records_received_tot`; if selected and
data storage is enabled, run the write retry loop and add the elapsed time
(attempt overhead plus backoff sleeps) to `m_writing_ms`, incrementing the
written/bytes counters only on success; run the sequence-completion block;
finally, if the event is complete and `m_running` was read `true`, run the
token notify loop. -/
def receive_trigger_record (cfg : DWConfig) (st : DWState) (hdr : TRHeader)
    (orc : RecvOracle) : DWState × RecvEffects :=
  let st1 : DWState := { st with
    records_received := st.records_received + 1
    records_received_tot := st.records_received_tot + 1 }
  if hdr.run_number ≠ cfg.run_number then
    (st1, { run_mismatch_error := true, write_attempted := false, written := false,
            token_attempted := false, token_sent := false,
            token_run_number := 0, token_trigger_number := 0, backoff_delays := [] })
  else
    let write_attempted : Bool :=
      (decide (cfg.data_storage_prescale ≤ 1)
        || decide (st1.records_received_tot % cfg.data_storage_prescale = 1))
      && cfg.data_storage_is_enabled
    let wres : WriteLoopResult :=
      if write_attempted then
        writeRetryLoop cfg.max_write_retry_time_usec cfg.write_retry_time_increase_factor
          cfg.min_write_retry_time_usec orc.writeOutcomes orc.writeRunning
      else { written := false, abandoned := false, delays := [], attempts := 0 }
    let st2 : DWState := { st1 with
      records_written := st1.records_written + (if wres.written then 1 else 0)
      records_written_tot := st1.records_written_tot + (if wres.written then 1 else 0)
      bytes_output := st1.bytes_output + (if wres.written then hdr.total_size_bytes else 0)
      bytes_output_tot := st1.bytes_output_tot + (if wres.written then hdr.total_size_bytes else 0)
      writing_ms := st1.writing_ms +
        (if write_attempted then orc.writeOverhead + wres.delays.sum else 0) }
    let tr := seqTrack st2.seqno_counts hdr.trigger_number hdr.max_sequence_number
    let st3 : DWState := { st2 with seqno_counts := tr.2 }
    let send_token : Bool := orc.runningAtComplete && tr.1
    let nres : NotifyResult :=
      if send_token then notifyLoop orc.sendOutcomes orc.sendRunning
      else { sent := false, attempts := 0 }
    (st3, { run_mismatch_error := false, write_attempted := write_attempted,
            written := wres.written,
            token_attempted := send_token, token_sent := send_token && nres.sent,
            token_run_number := if send_token then cfg.run_number else 0,
            token_trigger_number := if send_token then hdr.trigger_number else 0,
            backoff_delays := wres.delays })

/-- `DataWriter::do_start` (DataWriter.cpp lines 168-177): clears the
sequence-count map and zeroes the received/written/bytes counters.
`m_writing_ms` is not touched here.  (`m_run_number`,
`m_data_storage_is_enabled` and the `m_running` flag, also set by
`do_start`, live in `DWConfig` / the oracle.) -/
def do_start (st : DWState) : DWState :=
  { st with
    seqno_counts := []
    records_received := 0
    records_received_tot := 0
    records_written := 0
    records_written_tot := 0
    bytes_output := 0
    bytes_output_tot := 0 }

/-- The `(trigger_number, max_sequence_number)` metadata of a queued part. -/
def metaOf (p : TRHeader × RecvOracle) : Nat × Nat :=
  (p.1.trigger_number, p.1.max_sequence_number)

/-- Processing a list of record parts (each with its environment oracle) in
order, as the single worker thread does, collecting the per-part effects. -/
def processList (cfg : DWConfig) : DWState → List (TRHeader × RecvOracle) → DWState × List RecvEffects
  | st, [] => (st, [])
  | st, (hdr, orc) :: rest =>
    let out := receive_trigger_record cfg st hdr orc
    let next := processList cfg out.1 rest
    (next.1, out.2 :: next.2)

/-! ## Lemmas about the map operations -/

theorem smSet_absent (m : SeqnoMap) (key v : Nat) (h : smLookup m key = none) :
    smSet m key v = m ++ [(key, v)] := by
  induction m with
  | nil => rfl
  | cons p rest ih =>
    obtain ⟨k, w⟩ := p
    by_cases hk : k = key
    · simp [smLookup, hk] at h
    · simp only [smLookup, if_neg hk] at h
      simp [smSet, hk, ih h]

theorem smLookup_append (m : SeqnoMap) (key v : Nat) (h : smLookup m key = none) :
    smLookup (m ++ [(key, v)]) key = some v := by
  induction m with
  | nil => simp [smLookup]
  | cons p rest ih =>
    obtain ⟨k, w⟩ := p
    by_cases hk : k = key
    · simp [smLookup, hk] at h
    · simp only [smLookup, if_neg hk] at h
      simp [smLookup, hk, ih h]

theorem smSet_append_present (m : SeqnoMap) (key v x : Nat) (h : smLookup m key = none) :
    smSet (m ++ [(key, v)]) key x = m ++ [(key, x)] := by
  induction m with
  | nil => simp [smSet]
  | cons p rest ih =>
    obtain ⟨k, w⟩ := p
    by_cases hk : k = key
    · simp [smLookup, hk] at h
    · simp only [smLookup, if_neg hk] at h
      simp [smSet, hk, ih h]

theorem smErase_append (m : SeqnoMap) (key v : Nat) (h : smLookup m key = none) :
    smErase (m ++ [(key, v)]) key = m := by
  induction m with
  | nil => simp [smErase]
  | cons p rest ih =>
    obtain ⟨k, w⟩ := p
    by_cases hk : k = key
    · simp [smLookup, hk] at h
    · simp only [smLookup, if_neg hk] at h
      simp [smErase, hk, ih h]

/-! ## Behaviour of one tracking step -/

theorem seqTrack_absent (m : SeqnoMap) (trigno k : Nat) (hk : 0 < k)
    (hm : smLookup m trigno = none) :
    seqTrack m trigno k = (false, m ++ [(trigno, 1)]) := by
  have hset := smSet_absent m trigno 1 hm
  have hlook := smLookup_append m trigno 1 hm
  have h1 : ¬ ((1 : Nat) > k) := by omega
  simp [seqTrack, smCount, hm, hset, hlook, hk, h1]

theorem seqTrack_present (m : SeqnoMap) (trigno k j : Nat) (hk : 0 < k)
    (hm : smLookup m trigno = none) :
    seqTrack (m ++ [(trigno, j)]) trigno k =
      if j + 1 > k then (true, m) else (false, m ++ [(trigno, j + 1)]) := by
  have hlook := smLookup_append m trigno j hm
  have hset := smSet_append_present m trigno j (j + 1) hm
  have hlook2 := smLookup_append m trigno (j + 1) hm
  have herase := smErase_append m trigno (j + 1) hm
  by_cases hcase : j + 1 > k
  · simp [seqTrack, smCount, hlook, hset, hlook2, herase, hk, hcase]
  · simp [seqTrack, smCount, hlook, hset, hlook2, herase, hk, hcase]

/-- The state of the count map after `j + 1 ≤ k` observations of parts of an
event that was initially absent from the map: the counter entry holds the
number of parts seen. -/
theorem observeN_state (trigno k : Nat) (m : SeqnoMap) (hk : 0 < k)
    (hm : smLookup m trigno = none) :
    ∀ j, j + 1 ≤ k → observeN trigno k m (j + 1) = m ++ [(trigno, j + 1)] := by
  intro j
  induction j with
  | zero =>
    intro _
    show (seqTrack (observeN trigno k m 0) trigno k).2 = _
    show (seqTrack m trigno k).2 = _
    rw [seqTrack_absent m trigno k hk hm]
  | succ j ih =>
    intro hj
    have hprev := ih (by omega)
    show (seqTrack (observeN trigno k m (j + 1)) trigno k).2 = _
    rw [hprev, seqTrack_present m trigno k (j + 1) hk hm]
    have : ¬ (j + 1 + 1 > k) := by omega
    simp [this]

/-- C1.  For every event with `max_sequence_number = k > 0` (the tracking
block never reads the parts' own sequence numbers, so their order is
irrelevant): each of the first `k` observations of the event leaves the
completion flag `false` (Incomplete) and leaves the counter at the number of
parts seen so far — created at `1` by the first part and incremented by `1`
by each later part — and the `(k+1)`-th observation yields `true` (Complete)
after which the event's entry is absent from the map. -/
theorem c1_seq_completion (k trigno : Nat) (m : SeqnoMap) (hk : 0 < k)
    (hm : smLookup m trigno = none) :
    (∀ j, j < k → (seqTrack (observeN trigno k m j) trigno k).1 = false
        ∧ smLookup (observeN trigno k m (j + 1)) trigno = some (j + 1))
    ∧ (seqTrack (observeN trigno k m k) trigno k).1 = true
    ∧ smLookup (observeN trigno k m (k + 1)) trigno = none := by
  have hobs := observeN_state trigno k m hk hm
  obtain ⟨k', rfl⟩ : ∃ k', k = k' + 1 := ⟨k - 1, by omega⟩
  refine ⟨?_, ?_, ?_⟩
  · intro j hj
    constructor
    · match j, hj with
      | 0, _ =>
        show (seqTrack m trigno (k' + 1)).1 = false
        rw [seqTrack_absent m trigno (k' + 1) hk hm]
      | j'' + 1, hj =>
        rw [hobs j'' (by omega), seqTrack_present m trigno (k' + 1) (j'' + 1) hk hm]
        have : ¬ (j'' + 1 + 1 > k' + 1) := by omega
        simp [this]
    · rw [hobs j (by omega)]
      exact smLookup_append m trigno (j + 1) hm
  · rw [hobs k' (by omega), seqTrack_present m trigno (k' + 1) (k' + 1) hk hm]
    have : k' + 1 + 1 > k' + 1 := by omega
    simp [this]
  · show smLookup (seqTrack (observeN trigno (k' + 1) m (k' + 1)) trigno (k' + 1)).2 trigno = none
    rw [hobs k' (by omega), seqTrack_present m trigno (k' + 1) (k' + 1) hk hm]
    have : k' + 1 + 1 > k' + 1 := by omega
    simp [this, hm]

/-- Witness for C1 at `k = 2`, an empty initial map and trigger number 7. -/
theorem c1_seq_completion_witness :
    ((0 : Nat) < 2 ∧ smLookup [] 7 = none)
    ∧ ((seqTrack (observeN 7 2 [] 0) 7 2).1 = false
        ∧ smLookup (observeN 7 2 [] 1) 7 = some 1)
    ∧ ((seqTrack (observeN 7 2 [] 1) 7 2).1 = false
        ∧ smLookup (observeN 7 2 [] 2) 7 = some 2)
    ∧ (seqTrack (observeN 7 2 [] 2) 7 2).1 = true
    ∧ smLookup (observeN 7 2 [] 3) 7 = none := by
  have h := c1_seq_completion 2 7 [] (by decide) (by decide)
  exact ⟨⟨by decide, by decide⟩, h.1 0 (by decide), h.1 1 (by decide), h.2.1, h.2.2⟩

/-- C2.  For every event with `max_sequence_number = 0` the tracking block
reports Complete immediately and leaves the map untouched: no entry is ever
created for such an event. -/
theorem c2_single_part_event (m : SeqnoMap) (trigno : Nat) :
    seqTrack m trigno 0 = (true, m) := by
  simp [seqTrack]

/-! ## Configuration-time presence token (C5) -/

theorem confTokenLoop_attempts_le (sends : List Bool) :
    ∀ c, 0 < c → (confTokenLoop c sends).2 ≤ c := by
  induction sends with
  | nil => intro c hc; simp [confTokenLoop]
  | cons s rest ih =>
    intro c hc
    by_cases hs : s = true
    · simp [confTokenLoop, hs]; omega
    · have hs' : s = false := by simp at hs; exact hs
      subst hs'
      by_cases hc1 : c - 1 = 0
      · simp [confTokenLoop, hc1]; omega
      · have := ih (c - 1) (by omega)
        simp only [confTokenLoop, Bool.false_eq_true, if_neg, ite_false, if_neg hc1]
        omega

/-- Counterexample to C5: with a working data store but a send oracle that
fails all five bounded presence-token attempts, `do_conf` completes without
raising (`threw = false`) — the configure transition succeeds even though
the token was never sent, instead of failing loudly. -/
theorem c5_counterexample :
    (do_conf ⟨1, 10, 1000, 2⟩ true [false, false, false, false, false]).send_attempts = 5
    ∧ (do_conf ⟨1, 10, 1000, 2⟩ true [false, false, false, false, false]).token_sent = false
    ∧ (do_conf ⟨1, 10, 1000, 2⟩ true [false, false, false, false, false]).threw = false := by
  decide

/-- C5 amended.  The presence-token send at configure time is attempted a
bounded number of times (at most 5); if every attempt fails, each failure is
only reported as a warning and `do_conf` still completes successfully — it
does not raise and does not prevent the subsequent start transition.  Only a
storage-backend construction failure makes `do_conf` raise. -/
theorem c5_conf_token_amended (p : ConfParams) (sends : List Bool) :
    (do_conf p true sends).threw = false
    ∧ (do_conf p true sends).send_attempts ≤ 5
    ∧ (do_conf p false sends).threw = true := by
  refine ⟨by simp [do_conf], ?_, by simp [do_conf]⟩
  simp only [do_conf, if_pos]
  exact confTokenLoop_attempts_le sends 5 (by omega)

/-! ## Run-start resets (C8) -/

/-- Counterexample to C8: `do_start` does not reset `m_writing_ms`; starting
from a state whose cumulative write-latency counter is 7, it is still 7 (not
zero) after the start transition completes. -/
theorem c8_counterexample :
    (do_start ⟨0, 0, 0, 0, 0, 0, 7, []⟩).writing_ms ≠ 0 := by
  decide

/-- C8 amended.  After the start transition the received counts, written
counts and bytes-written counters are all zero and the sequence counter
table is empty, but the cumulative write-latency counter `m_writing_ms` is
left unchanged (it is only zeroed when the monitoring snapshot `get_info`
exchanges it out). -/
theorem c8_start_resets_amended (st : DWState) :
    (do_start st).records_received = 0 ∧ (do_start st).records_received_tot = 0
    ∧ (do_start st).records_written = 0 ∧ (do_start st).records_written_tot = 0
    ∧ (do_start st).bytes_output = 0 ∧ (do_start st).bytes_output_tot = 0
    ∧ (do_start st).seqno_counts = []
    ∧ (do_start st).writing_ms = st.writing_ms := by
  exact ⟨rfl, rfl, rfl, rfl, rfl, rfl, rfl, rfl⟩

/-! ## The backoff delay sequence (C4) -/

theorem capDelay_le (maxT w : Nat) : capDelay maxT w ≤ maxT := by
  unfold capDelay
  split <;> omega

theorem capDelay_of_le (maxT w : Nat) (h : w ≤ maxT) : capDelay maxT w = w := by
  unfold capDelay
  have : ¬ (w > maxT) := by omega
  simp [this]

theorem writeRetryLoop_retryable_true (maxT factor w : Nat)
    (rest : List WriteAttemptOutcome) (rrest : List Bool) :
    writeRetryLoop maxT factor w (WriteAttemptOutcome.retryable :: rest) (true :: rrest)
      = { written := (writeRetryLoop maxT factor (capDelay maxT w * factor) rest rrest).written,
          abandoned := (writeRetryLoop maxT factor (capDelay maxT w * factor) rest rrest).abandoned,
          delays := capDelay maxT w ::
            (writeRetryLoop maxT factor (capDelay maxT w * factor) rest rrest).delays,
          attempts := (writeRetryLoop maxT factor (capDelay maxT w * factor) rest rrest).attempts + 1 } :=
  rfl

theorem writeRetryLoop_retryable_false (maxT factor w : Nat)
    (rest : List WriteAttemptOutcome) (rrest : List Bool) :
    writeRetryLoop maxT factor w (WriteAttemptOutcome.retryable :: rest) (false :: rrest)
      = { written := false, abandoned := true, delays := [capDelay maxT w], attempts := 1 } :=
  rfl

theorem notifyLoop_fail_true (rest rrest : List Bool) :
    notifyLoop (false :: rest) (true :: rrest)
      = { sent := (notifyLoop rest rrest).sent,
          attempts := (notifyLoop rest rrest).attempts + 1 } :=
  rfl

/-- Under sustained retryable failures with the running flag held `true`,
the retry loop makes exactly its `n` attempts, sleeping the closed-form
delay sequence, and the part is never written. -/
theorem writeRetryLoop_sustained (maxT factor : Nat) :
    ∀ n w, writeRetryLoop maxT factor w
        (List.replicate n WriteAttemptOutcome.retryable) (List.replicate n true)
      = { written := false, abandoned := true,
          delays := delaysSeq maxT factor w n, attempts := n } := by
  intro n
  induction n with
  | zero => intro w; rfl
  | succ n ih =>
    intro w
    show writeRetryLoop maxT factor w
        (WriteAttemptOutcome.retryable :: List.replicate n WriteAttemptOutcome.retryable)
        (true :: List.replicate n true) = _
    rw [writeRetryLoop_retryable_true, ih (capDelay maxT w * factor)]
    rfl

theorem sustainedDelays_eq (maxT factor w n : Nat) :
    sustainedDelays maxT factor w n = delaysSeq maxT factor w n := by
  simp [sustainedDelays, writeRetryLoop_sustained]

theorem delaysSeq_getD_zero (maxT factor w n : Nat) (h : 0 < n) :
    (delaysSeq maxT factor w n).getD 0 0 = capDelay maxT w := by
  obtain ⟨n', rfl⟩ : ∃ n', n = n' + 1 := ⟨n - 1, by omega⟩
  rfl

/-- Every slept delay is a `capDelay` image, hence bounded by the maximum. -/
theorem delaysSeq_le (maxT factor : Nat) :
    ∀ n w, ∀ d ∈ delaysSeq maxT factor w n, d ≤ maxT := by
  intro n
  induction n with
  | zero => intro w d hd; simp [delaysSeq] at hd
  | succ n ih =>
    intro w d hd
    simp only [delaysSeq, List.mem_cons] at hd
    rcases hd with h | h
    · subst h; exact capDelay_le maxT w
    · exact ih _ d h

theorem delaysSeq_getD_succ (maxT factor : Nat) :
    ∀ i n w, i + 1 < n →
      (delaysSeq maxT factor w n).getD (i + 1) 0
        = capDelay maxT ((delaysSeq maxT factor w n).getD i 0 * factor) := by
  intro i
  induction i with
  | zero =>
    intro n w h
    obtain ⟨m, rfl⟩ : ∃ m, n = m + 2 := ⟨n - 2, by omega⟩
    show (delaysSeq maxT factor (capDelay maxT w * factor) (m + 1)).getD 0 0 = _
    rw [delaysSeq_getD_zero maxT factor _ (m + 1) (by omega)]
    rfl
  | succ i ih =>
    intro n w h
    obtain ⟨m, rfl⟩ : ∃ m, n = m + 1 := ⟨n - 1, by omega⟩
    show (delaysSeq maxT factor (capDelay maxT w * factor) m).getD (i + 1) 0 = _
    rw [ih m (capDelay maxT w * factor) (by omega)]
    rfl

/-- C4.  With the minimum retry delay as stored by `do_conf` (clamped to at
least one microsecond at configuration time) and a configuration whose
minimum does not exceed its maximum, the backoff delays actually slept under
sustained retryable write failures start at the configured minimum, each
subsequent delay is the previous one multiplied by the configured growth
factor and capped at the configured maximum, and no slept delay ever exceeds
the configured maximum. -/
theorem c4_backoff_delays (p : ConfParams) (store_ok : Bool) (sends : List Bool)
    (minT n : Nat)
    (hmin : minT = (do_conf p store_ok sends).min_write_retry_time_usec)
    (hle : minT ≤ p.max_write_retry_time_usec) :
    1 ≤ minT
    ∧ (0 < n →
        (sustainedDelays p.max_write_retry_time_usec p.write_retry_time_increase_factor minT n).getD 0 0
          = minT)
    ∧ (∀ i, i + 1 < n →
        (sustainedDelays p.max_write_retry_time_usec p.write_retry_time_increase_factor minT n).getD (i + 1) 0
          = capDelay p.max_write_retry_time_usec
              ((sustainedDelays p.max_write_retry_time_usec p.write_retry_time_increase_factor minT n).getD i 0
                * p.write_retry_time_increase_factor))
    ∧ (∀ d ∈ sustainedDelays p.max_write_retry_time_usec p.write_retry_time_increase_factor minT n,
        d ≤ p.max_write_retry_time_usec) := by
  have hminval : (do_conf p store_ok sends).min_write_retry_time_usec
      = if p.min_write_retry_time_usec < 1 then 1 else p.min_write_retry_time_usec := by
    cases store_ok <;> simp [do_conf]
  refine ⟨?_, ?_, ?_, ?_⟩
  · rw [hmin, hminval]; split <;> omega
  · intro hn
    rw [sustainedDelays_eq, delaysSeq_getD_zero _ _ _ _ hn, capDelay_of_le _ _ hle]
  · intro i hi
    rw [sustainedDelays_eq]
    exact delaysSeq_getD_succ _ _ i n minT hi
  · intro d hd
    rw [sustainedDelays_eq] at hd
    exact delaysSeq_le _ _ n minT d hd

/-- Witness for C4: configured minimum 0 (clamped to 1), maximum 40, growth
factor 3, four sustained retryable failures: slept delays `[1, 3, 9, 27]`. -/
theorem c4_backoff_delays_witness :
    1 ≤ (1 : Nat)
    ∧ (sustainedDelays 40 3 1 4).getD 0 0 = 1
    ∧ (sustainedDelays 40 3 1 4).getD 2 0
        = capDelay 40 ((sustainedDelays 40 3 1 4).getD 1 0 * 3) := by
  have h := c4_backoff_delays ⟨1, 0, 40, 3⟩ true [true] 1 4 (by decide) (by decide)
  exact ⟨h.1, h.2.1 (by decide), h.2.2.1 1 (by decide)⟩

/-! ## Abandonment on stop (C6) -/

/-- If the running flag reads `false` after the `(k+1)`-th retryable write
failure, the retry loop stops there: `k+1` write attempts in total, the part
not written, the attempt abandoned — whatever outcomes and flag reads would
have followed. -/
theorem writeRetryLoop_stop (maxT factor : Nat) :
    ∀ k w (restO : List WriteAttemptOutcome) (restR : List Bool),
      writeRetryLoop maxT factor w
          (List.replicate (k + 1) WriteAttemptOutcome.retryable ++ restO)
          (List.replicate k true ++ false :: restR)
        = { written := false, abandoned := true,
            delays := delaysSeq maxT factor w (k + 1), attempts := k + 1 } := by
  intro k
  induction k with
  | zero =>
    intro w restO restR
    show writeRetryLoop maxT factor w
        (WriteAttemptOutcome.retryable :: restO) (false :: restR) = _
    rw [writeRetryLoop_retryable_false]
    rfl
  | succ k ih =>
    intro w restO restR
    show writeRetryLoop maxT factor w
        (WriteAttemptOutcome.retryable ::
          (List.replicate (k + 1) WriteAttemptOutcome.retryable ++ restO))
        (true :: (List.replicate k true ++ false :: restR)) = _
    rw [writeRetryLoop_retryable_true, ih (capDelay maxT w * factor) restO restR]
    rfl

/-- If the running flag reads `false` after the `(k+1)`-th failed token
send, the notify loop stops there: `k+1` send attempts, token not sent. -/
theorem notifyLoop_stop :
    ∀ k (sendsRest restR : List Bool),
      notifyLoop (List.replicate (k + 1) false ++ sendsRest)
          (List.replicate k true ++ false :: restR)
        = { sent := false, attempts := k + 1 } := by
  intro k
  induction k with
  | zero =>
    intro sendsRest restR
    rfl
  | succ k ih =>
    intro sendsRest restR
    show notifyLoop (false :: (List.replicate (k + 1) false ++ sendsRest))
        (true :: (List.replicate k true ++ false :: restR)) = _
    rw [notifyLoop_fail_true, ih sendsRest restR]

/-- C6.  When the running flag is observed cleared between attempts — after
the `(k+1)`-th retryable write failure, respectively after the `(k+1)`-th
failed token send — the write retry loop terminates with exactly those `k+1`
storage-write attempts (none further, whatever `restO`/`restR` would have
offered) and the record part is abandoned, not written; and the token notify
loop terminates with exactly those `k+1` send attempts and the token is not
sent. -/
theorem c6_stop_abandons (maxT factor w k : Nat) (restO : List WriteAttemptOutcome)
    (restR sendsRest restR' : List Bool) :
    ((writeRetryLoop maxT factor w
        (List.replicate (k + 1) WriteAttemptOutcome.retryable ++ restO)
        (List.replicate k true ++ false :: restR)).written = false
      ∧ (writeRetryLoop maxT factor w
          (List.replicate (k + 1) WriteAttemptOutcome.retryable ++ restO)
          (List.replicate k true ++ false :: restR)).abandoned = true
      ∧ (writeRetryLoop maxT factor w
          (List.replicate (k + 1) WriteAttemptOutcome.retryable ++ restO)
          (List.replicate k true ++ false :: restR)).attempts = k + 1)
    ∧ ((notifyLoop (List.replicate (k + 1) false ++ sendsRest)
          (List.replicate k true ++ false :: restR')).sent = false
      ∧ (notifyLoop (List.replicate (k + 1) false ++ sendsRest)
          (List.replicate k true ++ false :: restR')).attempts = k + 1) := by
  rw [writeRetryLoop_stop maxT factor k w restO restR, notifyLoop_stop k sendsRest restR']
  exact ⟨⟨rfl, rfl, rfl⟩, rfl, rfl⟩

/-! ## Per-record processing: characterisation lemmas -/

/-- On a run-number mismatch the record part is dropped after the received
counters were already incremented: no other state change, no effects. -/
theorem receive_mismatch (cfg : DWConfig) (st : DWState) (hdr : TRHeader)
    (orc : RecvOracle) (h : hdr.run_number ≠ cfg.run_number) :
    receive_trigger_record cfg st hdr orc =
      ({ st with records_received := st.records_received + 1,
                 records_received_tot := st.records_received_tot + 1 },
       { run_mismatch_error := true, write_attempted := false, written := false,
         token_attempted := false, token_sent := false,
         token_run_number := 0, token_trigger_number := 0, backoff_delays := [] }) := by
  unfold receive_trigger_record
  rw [if_pos h]

/-- On a run-number match: no mismatch error, the storage branch is entered
iff the prescale (tested against the incremented total received count)
selects the part and storage is enabled, the count map evolves by exactly
one tracking step, and the token loop is entered iff the tracker reports the
event complete and the running flag was read `true`. -/
theorem receive_match_spec (cfg : DWConfig) (st : DWState) (hdr : TRHeader)
    (orc : RecvOracle) (h : hdr.run_number = cfg.run_number) :
    (receive_trigger_record cfg st hdr orc).2.run_mismatch_error = false
    ∧ (receive_trigger_record cfg st hdr orc).2.write_attempted
        = ((decide (cfg.data_storage_prescale ≤ 1)
            || decide ((st.records_received_tot + 1) % cfg.data_storage_prescale = 1))
          && cfg.data_storage_is_enabled)
    ∧ (receive_trigger_record cfg st hdr orc).1.seqno_counts
        = (seqTrack st.seqno_counts hdr.trigger_number hdr.max_sequence_number).2
    ∧ (receive_trigger_record cfg st hdr orc).2.token_attempted
        = (orc.runningAtComplete
          && (seqTrack st.seqno_counts hdr.trigger_number hdr.max_sequence_number).1) := by
  unfold receive_trigger_record
  rw [if_neg (not_not_intro h)]
  refine ⟨rfl, rfl, rfl, rfl⟩

/-- Both received counters are incremented by every call, mismatch or not. -/
theorem receive_received (cfg : DWConfig) (st : DWState) (hdr : TRHeader)
    (orc : RecvOracle) :
    (receive_trigger_record cfg st hdr orc).1.records_received = st.records_received + 1
    ∧ (receive_trigger_record cfg st hdr orc).1.records_received_tot
        = st.records_received_tot + 1 := by
  unfold receive_trigger_record
  by_cases h : hdr.run_number ≠ cfg.run_number
  · rw [if_pos h]; exact ⟨rfl, rfl⟩
  · rw [if_neg h]; exact ⟨rfl, rfl⟩

/-- The cumulative write-latency counter after a matching part: increased by
the measured span (attempt overhead plus every backoff sleep) exactly when
the storage branch was entered, independently of the write outcome. -/
theorem receive_writing_ms (cfg : DWConfig) (st : DWState) (hdr : TRHeader)
    (orc : RecvOracle) (h : hdr.run_number = cfg.run_number) :
    (receive_trigger_record cfg st hdr orc).1.writing_ms
      = st.writing_ms +
        (if ((decide (cfg.data_storage_prescale ≤ 1)
              || decide ((st.records_received_tot + 1) % cfg.data_storage_prescale = 1))
            && cfg.data_storage_is_enabled) = true
         then orc.writeOverhead
              + (writeRetryLoop cfg.max_write_retry_time_usec
                  cfg.write_retry_time_increase_factor cfg.min_write_retry_time_usec
                  orc.writeOutcomes orc.writeRunning).delays.sum
         else 0) := by
  unfold receive_trigger_record
  rw [if_neg (not_not_intro h)]
  by_cases hc : ((decide (cfg.data_storage_prescale ≤ 1)
      || decide ((st.records_received_tot + 1) % cfg.data_storage_prescale = 1))
      && cfg.data_storage_is_enabled) = true
  · simp [hc]
  · simp [hc]

/-- C7.  A part whose `run_id` differs from the active run reports an error
and is dropped: the storage branch is never entered, nothing is written, no
token is attempted or sent, and the state is unchanged except for the two
received counters — in particular the sequence counter table and the
written/bytes/latency counters are untouched. -/
theorem c7_run_mismatch_drops (cfg : DWConfig) (st : DWState) (hdr : TRHeader)
    (orc : RecvOracle) (h : hdr.run_number ≠ cfg.run_number) :
    (receive_trigger_record cfg st hdr orc).2.run_mismatch_error = true
    ∧ (receive_trigger_record cfg st hdr orc).2.write_attempted = false
    ∧ (receive_trigger_record cfg st hdr orc).2.written = false
    ∧ (receive_trigger_record cfg st hdr orc).2.token_attempted = false
    ∧ (receive_trigger_record cfg st hdr orc).2.token_sent = false
    ∧ (receive_trigger_record cfg st hdr orc).1
        = { st with records_received := st.records_received + 1,
                    records_received_tot := st.records_received_tot + 1 } := by
  rw [receive_mismatch cfg st hdr orc h]
  exact ⟨rfl, rfl, rfl, rfl, rfl, rfl⟩

/-- Witness for C7: active run 7, part from run 8. -/
theorem c7_run_mismatch_drops_witness :
    (receive_trigger_record ⟨7, 1, true, 1, 10, 2⟩ ⟨0, 4, 0, 0, 0, 0, 9, [(5, 1)]⟩
        ⟨8, 3, 0, 2, 50⟩ default).2.run_mismatch_error = true
    ∧ (receive_trigger_record ⟨7, 1, true, 1, 10, 2⟩ ⟨0, 4, 0, 0, 0, 0, 9, [(5, 1)]⟩
        ⟨8, 3, 0, 2, 50⟩ default).2.write_attempted = false
    ∧ (receive_trigger_record ⟨7, 1, true, 1, 10, 2⟩ ⟨0, 4, 0, 0, 0, 0, 9, [(5, 1)]⟩
        ⟨8, 3, 0, 2, 50⟩ default).2.token_attempted = false
    ∧ (receive_trigger_record ⟨7, 1, true, 1, 10, 2⟩ ⟨0, 4, 0, 0, 0, 0, 9, [(5, 1)]⟩
        ⟨8, 3, 0, 2, 50⟩ default).1
        = ⟨1, 5, 0, 0, 0, 0, 9, [(5, 1)]⟩ := by
  have h := c7_run_mismatch_drops ⟨7, 1, true, 1, 10, 2⟩ ⟨0, 4, 0, 0, 0, 0, 9, [(5, 1)]⟩
    ⟨8, 3, 0, 2, 50⟩ default (by decide)
  exact ⟨h.1, h.2.1, h.2.2.2.1, h.2.2.2.2.2⟩

/-- C9.  Whenever data storage is enabled and the part is selected by the
prescale, `m_writing_ms` grows by the full wall-clock span of the write
attempt — the time spent in the attempts themselves plus every backoff
sleep — for every possible sequence of attempt outcomes, including runs
that end in a fatal failure or are abandoned because the running flag
cleared, not only on success. -/
theorem c9_writing_time (cfg : DWConfig) (st : DWState) (hdr : TRHeader)
    (orc : RecvOracle) (hrun : hdr.run_number = cfg.run_number)
    (hen : cfg.data_storage_is_enabled = true)
    (hps : cfg.data_storage_prescale ≤ 1
      ∨ (st.records_received_tot + 1) % cfg.data_storage_prescale = 1) :
    (receive_trigger_record cfg st hdr orc).1.writing_ms
      = st.writing_ms + orc.writeOverhead
        + (writeRetryLoop cfg.max_write_retry_time_usec
            cfg.write_retry_time_increase_factor cfg.min_write_retry_time_usec
            orc.writeOutcomes orc.writeRunning).delays.sum := by
  rw [receive_writing_ms cfg st hdr orc hrun]
  have hcond : ((decide (cfg.data_storage_prescale ≤ 1)
      || decide ((st.records_received_tot + 1) % cfg.data_storage_prescale = 1))
      && cfg.data_storage_is_enabled) = true := by
    rcases hps with h | h <;> simp [h, hen]
  rw [hcond]
  simp [Nat.add_assoc]

/-- Witness for C9: prescale 1, enabled, a retryable failure then the
running flag cleared — the write is abandoned, yet the latency counter
grows by the overhead (4) plus the slept backoff (6). -/
theorem c9_writing_time_witness :
    (receive_trigger_record ⟨7, 1, true, 6, 10, 2⟩ ⟨0, 0, 0, 0, 0, 0, 100, []⟩
        ⟨7, 3, 0, 0, 50⟩ ⟨[WriteAttemptOutcome.retryable], [false], 4, true, [true], []⟩).1.writing_ms
      = 100 + 4
        + (writeRetryLoop 10 2 6 [WriteAttemptOutcome.retryable] [false]).delays.sum := by
  have h := c9_writing_time ⟨7, 1, true, 6, 10, 2⟩ ⟨0, 0, 0, 0, 0, 0, 100, []⟩
    ⟨7, 3, 0, 0, 50⟩ ⟨[WriteAttemptOutcome.retryable], [false], 4, true, [true], []⟩
    (by decide) (by decide) (Or.inl (by decide))
  exact h

/-- C10.  The received counters are incremented before the run-number
validation: a mismatched part still advances both received counters, and the
prescale decision of any later matching part is driven by the total received
count (`m_records_received_tot`, which includes mismatched parts), not by
the part's index among the run's own parts. -/
theorem c10_prescale_counts_mismatched (cfg : DWConfig) (st st2 : DWState)
    (hdr hdr2 : TRHeader) (orc orc2 : RecvOracle)
    (hmis : hdr.run_number ≠ cfg.run_number)
    (hmat : hdr2.run_number = cfg.run_number) :
    (receive_trigger_record cfg st hdr orc).2.run_mismatch_error = true
    ∧ (receive_trigger_record cfg st hdr orc).1.records_received = st.records_received + 1
    ∧ (receive_trigger_record cfg st hdr orc).1.records_received_tot
        = st.records_received_tot + 1
    ∧ (receive_trigger_record cfg st2 hdr2 orc2).2.write_attempted
        = ((decide (cfg.data_storage_prescale ≤ 1)
            || decide ((st2.records_received_tot + 1) % cfg.data_storage_prescale = 1))
          && cfg.data_storage_is_enabled) := by
  refine ⟨?_, (receive_received cfg st hdr orc).1, (receive_received cfg st hdr orc).2, ?_⟩
  · rw [receive_mismatch cfg st hdr orc hmis]
  · exact (receive_match_spec cfg st2 hdr2 orc2 hmat).2.1

/-- Witness for C10, showing the dependence concretely with prescale 2:
after one matching and one mismatched part the total received count is 2,
so the next matching part (total count 3, but only the second part of its
own run) is selected by the prescale (3 mod 2 = 1). -/
theorem c10_prescale_counts_mismatched_witness :
    (receive_trigger_record ⟨7, 2, true, 1, 10, 2⟩ ⟨1, 1, 0, 0, 0, 0, 0, []⟩
        ⟨8, 5, 0, 0, 10⟩ default).2.run_mismatch_error = true
    ∧ (receive_trigger_record ⟨7, 2, true, 1, 10, 2⟩ ⟨1, 1, 0, 0, 0, 0, 0, []⟩
        ⟨8, 5, 0, 0, 10⟩ default).1.records_received_tot = 2
    ∧ (receive_trigger_record ⟨7, 2, true, 1, 10, 2⟩ ⟨2, 2, 0, 0, 0, 0, 0, []⟩
        ⟨7, 6, 0, 0, 10⟩ ⟨[WriteAttemptOutcome.success], [], 0, true, [true], []⟩).2.write_attempted
      = true := by
  have h := c10_prescale_counts_mismatched ⟨7, 2, true, 1, 10, 2⟩
    ⟨1, 1, 0, 0, 0, 0, 0, []⟩ ⟨2, 2, 0, 0, 0, 0, 0, []⟩
    ⟨8, 5, 0, 0, 10⟩ ⟨7, 6, 0, 0, 10⟩ default
    ⟨[WriteAttemptOutcome.success], [], 0, true, [true], []⟩
    (by decide) (by decide)
  exact ⟨h.1, h.2.2.1, h.2.2.2.trans (by decide)⟩

/-! ## Streams of parts within a run (C3) -/

/-- Invariants of processing a run-matching stream of parts from an
arbitrary starting state: the count map is threaded through one tracking
step per part (prescale-skipped or not), the part with 0-based index `i`
enters the storage branch iff the prescale selects total received count
`st.records_received_tot + i + 1` (and storage is enabled), and the token
loop is entered for part `i` iff the tracker — fed every previous part —
reports its event complete and the running flag read `true`. -/
theorem processList_spec (cfg : DWConfig) :
    ∀ (parts : List (TRHeader × RecvOracle)) (st : DWState),
      (∀ p ∈ parts, (Prod.fst p).run_number = cfg.run_number) →
      ((processList cfg st parts).1.seqno_counts
          = trackList st.seqno_counts (parts.map metaOf))
      ∧ ∀ i, i < parts.length →
          (((processList cfg st parts).2.getD i default).write_attempted
            = ((decide (cfg.data_storage_prescale ≤ 1)
                || decide ((st.records_received_tot + i + 1) % cfg.data_storage_prescale = 1))
              && cfg.data_storage_is_enabled))
          ∧ (((processList cfg st parts).2.getD i default).token_attempted
            = ((parts.getD i default).2.runningAtComplete
              && (seqTrack (trackList st.seqno_counts ((parts.take i).map metaOf))
                    (parts.getD i default).1.trigger_number
                    (parts.getD i default).1.max_sequence_number).1)) := by
  intro parts
  induction parts with
  | nil =>
    intro st hmatch
    refine ⟨rfl, ?_⟩
    intro i hi
    simp at hi
  | cons p rest ih =>
    obtain ⟨hdr, orc⟩ := p
    intro st hmatch
    have hhdr : hdr.run_number = cfg.run_number := hmatch (hdr, orc) (List.mem_cons_self _ _)
    have hrest : ∀ q ∈ rest, (Prod.fst q).run_number = cfg.run_number :=
      fun q hq => hmatch q (List.mem_cons_of_mem _ hq)
    have hstep := receive_match_spec cfg st hdr orc hhdr
    have hrecv := receive_received cfg st hdr orc
    have IH := ih (receive_trigger_record cfg st hdr orc).1 hrest
    constructor
    · show (processList cfg (receive_trigger_record cfg st hdr orc).1 rest).1.seqno_counts = _
      rw [IH.1, hstep.2.2.1]
      rfl
    · intro i hi
      cases i with
      | zero =>
        constructor
        · show ((receive_trigger_record cfg st hdr orc).2).write_attempted = _
          rw [hstep.2.1]
        · show ((receive_trigger_record cfg st hdr orc).2).token_attempted = _
          rw [hstep.2.2.2]
          rfl
      | succ i =>
        have hi' : i < rest.length := by simpa using hi
        have IH2 := IH.2 i hi'
        constructor
        · show (((processList cfg (receive_trigger_record cfg st hdr orc).1 rest).2).getD i default).write_attempted = _
          rw [IH2.1, hrecv.2]
          have harith : st.records_received_tot + 1 + i + 1 = st.records_received_tot + (i + 1) + 1 := by
            omega
          rw [harith]
        · show (((processList cfg (receive_trigger_record cfg st hdr orc).1 rest).2).getD i default).token_attempted = _
          rw [IH2.2, hstep.2.2.1]
          rfl

/-- C3.  For a run-matching stream of parts processed from the state left by
`do_start`, with data storage enabled: the part with 1-based received index
`i + 1` enters the storage-write branch iff the prescale `N` satisfies
`N ≤ 1` or `(i + 1) mod N = 1`; every part — prescale-skipped or not — is
fed to the sequence-completion tracker (the final count map is the fold of
the tracking step over all parts); and each part triggers the completion
notification exactly when the tracker, fed all previous parts, reports its
event complete and the running flag read `true` — independently of the
prescale decision. -/
theorem c3_prescale_and_tracking (cfg : DWConfig) (st : DWState)
    (parts : List (TRHeader × RecvOracle))
    (hen : cfg.data_storage_is_enabled = true)
    (hmatch : ∀ p ∈ parts, (Prod.fst p).run_number = cfg.run_number) :
    ((processList cfg (do_start st) parts).1.seqno_counts
        = trackList [] (parts.map metaOf))
    ∧ ∀ i, i < parts.length →
        (((processList cfg (do_start st) parts).2.getD i default).write_attempted
          = (decide (cfg.data_storage_prescale ≤ 1)
             || decide ((i + 1) % cfg.data_storage_prescale = 1)))
        ∧ (((processList cfg (do_start st) parts).2.getD i default).token_attempted
          = ((parts.getD i default).2.runningAtComplete
            && (seqTrack (trackList [] ((parts.take i).map metaOf))
                  (parts.getD i default).1.trigger_number
                  (parts.getD i default).1.max_sequence_number).1)) := by
  have h := processList_spec cfg parts (do_start st) hmatch
  constructor
  · exact h.1
  · intro i hi
    have h2 := h.2 i hi
    constructor
    · have htot : (do_start st).records_received_tot + i + 1 = i + 1 := by
        show 0 + i + 1 = i + 1
        omega
      rw [h2.1, htot, hen, Bool.and_true]
    · exact h2.2

/-- Witness for C3: prescale 2, enabled, three run-7 parts (event 21 in two
parts, then single-part event 22) from a dirty pre-start state.  The second
part (received index 2) is prescale-skipped yet completes event 21 and
triggers notification; the final count map is empty. -/
theorem c3_prescale_and_tracking_witness :
    (processList ⟨7, 2, true, 1, 10, 2⟩ (do_start ⟨1, 1, 1, 1, 1, 1, 9, [(5, 1)]⟩)
        [(⟨7, 21, 0, 1, 10⟩, ⟨[WriteAttemptOutcome.success], [], 0, true, [true], []⟩),
         (⟨7, 21, 1, 1, 10⟩, ⟨[WriteAttemptOutcome.success], [], 0, true, [true], []⟩),
         (⟨7, 22, 0, 0, 5⟩, ⟨[WriteAttemptOutcome.success], [], 0, true, [true], []⟩)]).1.seqno_counts
      = []
    ∧ ((processList ⟨7, 2, true, 1, 10, 2⟩ (do_start ⟨1, 1, 1, 1, 1, 1, 9, [(5, 1)]⟩)
        [(⟨7, 21, 0, 1, 10⟩, ⟨[WriteAttemptOutcome.success], [], 0, true, [true], []⟩),
         (⟨7, 21, 1, 1, 10⟩, ⟨[WriteAttemptOutcome.success], [], 0, true, [true], []⟩),
         (⟨7, 22, 0, 0, 5⟩, ⟨[WriteAttemptOutcome.success], [], 0, true, [true], []⟩)]).2.getD 1 default).write_attempted
      = false
    ∧ ((processList ⟨7, 2, true, 1, 10, 2⟩ (do_start ⟨1, 1, 1, 1, 1, 1, 9, [(5, 1)]⟩)
        [(⟨7, 21, 0, 1, 10⟩, ⟨[WriteAttemptOutcome.success], [], 0, true, [true], []⟩),
         (⟨7, 21, 1, 1, 10⟩, ⟨[WriteAttemptOutcome.success], [], 0, true, [true], []⟩),
         (⟨7, 22, 0, 0, 5⟩, ⟨[WriteAttemptOutcome.success], [], 0, true, [true], []⟩)]).2.getD 1 default).token_attempted
      = true := by
  have h := c3_prescale_and_tracking ⟨7, 2, true, 1, 10, 2⟩ ⟨1, 1, 1, 1, 1, 1, 9, [(5, 1)]⟩
    [(⟨7, 21, 0, 1, 10⟩, ⟨[WriteAttemptOutcome.success], [], 0, true, [true], []⟩),
     (⟨7, 21, 1, 1, 10⟩, ⟨[WriteAttemptOutcome.success], [], 0, true, [true], []⟩),
     (⟨7, 22, 0, 0, 5⟩, ⟨[WriteAttemptOutcome.success], [], 0, true, [true], []⟩)]
    rfl (by decide)
  exact ⟨h.1.trans (by decide),
    (h.2 1 (by decide)).1.trans (by decide),
    (h.2 1 (by decide)).2.trans (by decide)⟩
